import Mathlib

/-!
Shallow embedding of the Hytale server manager (src/server-manager.ts and
src/config.ts): process-supervisor state machine, stdout parsing, and the
hierarchical configuration store, with theorems checking the specification's
testable properties against the code.
-/

set_option maxRecDepth 4000

namespace Hytale

/-! ### Characters and strings

JS `\w` is `[A-Za-z0-9_]` and `\s` covers ASCII whitespace for the inputs at
hand; `toLowerCase` on ASCII is `Char.toLower`. -/

def isWordChar (c : Char) : Bool :=
  c.isAlpha || c.isDigit || c = '_'

def isSpaceChar (c : Char) : Bool :=
  c = ' ' || c = '\t' || c = '\n' || c = '\r' || c = '\x0b' || c = '\x0c'

def lowerChars (s : List Char) : List Char :=
  s.map Char.toLower

/-- `hay.includes(needle)`: some suffix of `hay` starts with `needle`. -/
def containsSub (hay needle : List Char) : Bool :=
  (List.range (hay.length + 1)).any fun i => needle.isPrefixOf (hay.drop i)

/-- Case-insensitive literal prefix test (for the `/i` regex flag). -/
def ciPrefixOf (lit s : List Char) : Bool :=
  (lowerChars lit).isPrefixOf (lowerChars s)

/-- Try to match the regex `(\w+)\s+(?:alt1|alt2|…)/i` at the head of `s`,
returning the capture of group 1 (original case).  A shorter-than-maximal
`\w+` or `\s+` run cannot be followed by `\s` resp. a letter-initial literal,
so only the maximal runs need to be tried: this is exactly the JS
backtracking behaviour for these patterns. -/
def matchNameAt (alts : List (List Char)) (s : List Char) : Option (List Char) :=
  let w := s.takeWhile isWordChar
  if w.isEmpty then none
  else
    let rest := s.drop w.length
    let sp := rest.takeWhile isSpaceChar
    if sp.isEmpty then none
    else if alts.any (fun a => ciPrefixOf a (rest.drop sp.length)) then some w
    else none

/-- Leftmost match of `(\w+)\s+(?:…)/i`, as `String.prototype.match` finds it:
try each start position left to right. -/
def findName (alts : List (List Char)) : List Char → Option (List Char)
  | [] => none
  | c :: cs =>
    match matchNameAt alts (c :: cs) with
    | some w => some w
    | none => findName alts cs

/-! ### Events emitted by the ServerManager -/

inductive Ev where
  | starting
  | started
  | ready
  | stopping (reason : String)
  | restarting (reason : String)
  | stopped (code : Option Int) (signal : Option String)
  | crashed (code : Option Int) (signal : Option String)
  | error (msg : String)
  | playerJoin (name : String) (count : Int)
  | playerLeave (name : String) (count : Int)
deriving DecidableEq, Repr

/-! ### parseServerOutput

`parseServerOutput` (server-manager.ts lines 260-288): lowercase the line,
then three independent substring-guarded blocks run in order — join
(increment, emit `playerJoin`), leave (decrement clamped at 0, emit
`playerLeave`), ready (emit `ready`). -/

def joinAlts : List (List Char) := ["joined the game".data, "connected".data]
def leaveAlts : List (List Char) := ["left the game".data, "disconnected".data]

def joinGuard (message : String) : Bool :=
  containsSub (lowerChars message.data) "joined the game".data ||
  containsSub (lowerChars message.data) "player connected".data

def leaveGuard (message : String) : Bool :=
  containsSub (lowerChars message.data) "left the game".data ||
  containsSub (lowerChars message.data) "player disconnected".data

def readyGuard (message : String) : Bool :=
  containsSub (lowerChars message.data) "done".data ||
  containsSub (lowerChars message.data) "server started".data

/-- The join block: `playerCount++` and emit with the post-increment count. -/
def joinStep (count : Int) (message : String) : Int × List Ev :=
  if joinGuard message then
    match findName joinAlts message.data with
    | some w => (count + 1, [Ev.playerJoin (String.mk w) (count + 1)])
    | none => (count, [])
  else (count, [])

/-- The leave block: `playerCount = Math.max(0, playerCount - 1)`. -/
def leaveStep (count : Int) (message : String) : Int × List Ev :=
  if leaveGuard message then
    match findName leaveAlts message.data with
    | some w => (max 0 (count - 1), [Ev.playerLeave (String.mk w) (max 0 (count - 1))])
    | none => (count, [])
  else (count, [])

def parseServerOutput (count : Int) (message : String) : Int × List Ev :=
  let s1 := joinStep count message
  let s2 := leaveStep s1.1 message
  (s2.1, s1.2 ++ s2.2 ++ (if readyGuard message then [Ev.ready] else []))

/-- Folding a sequence of stdout lines through the parser, tracking only the
player count. -/
def runLines (count : Int) (msgs : List String) : Int :=
  msgs.foldl (fun a m => (parseServerOutput a m).1) count

/-! ### Supervisor state

Mirrors the private fields of `ServerManager` (server-manager.ts lines
57-63).  A `Proc` is the `ChildProcess` handle with the presence of its
three stdio streams; a `LogHandle` is the `fs/promises` `FileHandle` held in
`logStream`, with a flag for whether it has been closed and a count of the
actual fd closes performed. -/

structure Proc where
  pid : Nat
  hasStdin : Bool
  hasStdout : Bool
  hasStderr : Bool
deriving DecidableEq, Repr

structure LogHandle where
  closed : Bool
  closeCount : Nat
deriving DecidableEq, Repr

structure MState where
  procHandle : Option Proc
  isRunningFlag : Bool
  startTime : Option Int
  restartTimer : Option Nat
  logStream : Option LogHandle
  playerCount : Int
deriving DecidableEq, Repr

/-- The synchronous errors thrown / rejections produced by the manager. -/
inductive MError where
  | alreadyRunning      -- 'Server is already running'
  | notRunning          -- 'Server is not running'
  | jarMissing          -- 'HytaleServer.jar not found at …'
  | assetsMissing       -- 'Assets file not found at …'
  | streamUnavailable   -- 'Failed to create server process streams'
deriving DecidableEq, Repr

/-- A settlement of the promise returned by an operation.  A promise keeps
only its first settlement; later `resolve`/`reject` calls are no-ops. -/
inductive Settle where
  | resolve
  | rejectErr (e : MError)
  | rejectSpawn (e : String)
deriving DecidableEq, Repr

/-- The outcome of a promise is its first settlement. -/
def promiseOutcome (l : List Settle) : Option Settle := l.head?

/-- Environment consumed by `start()`: existence of the two required files,
the `ChildProcess` value returned by `spawn`, `Date.now()`, and the
auto-restart configuration. -/
structure SpawnEnv where
  jarExists : Bool
  assetsExists : Bool
  proc : Proc
  now : Int
  autoRestart : Bool
  restartInterval : Nat
deriving DecidableEq, Repr

/-! ### start (server-manager.ts lines 93-205)

Synchronous part, through the end of the promise executor: guard on the
running flag, the two file-existence checks, `spawn`, the stream check, then
the optimistic tail — set `isRunningFlag`, record `startTime`, emit
`started`, arm the restart timer if configured, and `resolve()`.  Spawn-level
failures arrive asynchronously afterwards and are modelled by
`onSpawnError`. -/

def start (env : SpawnEnv) (st : MState) : MState × List Ev × List Settle :=
  if st.isRunningFlag then (st, [], [Settle.rejectErr MError.alreadyRunning])
  else if env.jarExists = false then (st, [], [Settle.rejectErr MError.jarMissing])
  else if env.assetsExists = false then (st, [], [Settle.rejectErr MError.assetsMissing])
  else
    let st1 : MState := { st with procHandle := some env.proc }
    if env.proc.hasStdout = false ∨ env.proc.hasStderr = false ∨ env.proc.hasStdin = false then
      (st1, [Ev.starting], [Settle.rejectErr MError.streamUnavailable])
    else
      ({ st1 with
          isRunningFlag := true
          startTime := some env.now
          restartTimer := if env.autoRestart then some env.restartInterval else none },
        [Ev.starting, Ev.started], [Settle.resolve])

/-- The process `'error'` handler (lines 167-172): clear the running flag,
emit `error`, call `reject` — note `startTime` is left as it was. -/
def onSpawnError (st : MState) (e : String) : MState × List Ev × List Settle :=
  ({ st with isRunningFlag := false }, [Ev.error e], [Settle.rejectSpawn e])

/-- The process `'exit'` handler (lines 174-188): clear the running flag and
start time, emit `stopped`, cancel any pending restart timer, and emit
`crashed` exactly when the exit code is non-zero and non-null. -/
def onExit (st : MState) (code : Option Int) (signal : Option String) : MState × List Ev :=
  ({ st with isRunningFlag := false, startTime := none, restartTimer := none },
    [Ev.stopped code signal] ++
      (if code ≠ some 0 ∧ code ≠ none then [Ev.crashed code signal] else []))

/-- A run of `start()` in which the spawn itself fails: the synchronous part
runs to completion first (Node delivers spawn errors on a later tick), then
the `'error'` handler fires.  Settlements accumulate in order. -/
def startWithSpawnFailure (env : SpawnEnv) (st : MState) (e : String) :
    MState × List Ev × List Settle :=
  let r1 := start env st
  let r2 := onSpawnError r1.1 e
  (r2.1, r1.2.1 ++ r2.2.1, r1.2.2 ++ r2.2.2)

/-! ### sendCommand (lines 251-258) -/

/-- Returns the text written to the child's stdin, or throws. -/
def sendCommand (st : MState) (command : String) : MState × Except MError String :=
  match st.procHandle with
  | some p =>
    if st.isRunningFlag && p.hasStdin then (st, Except.ok (command ++ "\n"))
    else (st, Except.error MError.notRunning)
  | none => (st, Except.error MError.notRunning)

/-! ### stop (lines 207-236)

The guard throws `NotRunning` before any state change.  On the success path
the method emits `stopping`, sends the `stop` command (via `sendCommand`,
which itself throws `NotRunning` if stdin is absent), arms a 30-second kill
timer, and resolves once the process exits — the exit runs the `'exit'`
handler registered by `start`, so `stop` is modelled together with the exit
it awaits, parameterised by the exit code and signal. -/

def stop (st : MState) (reason : String) (exitCode : Option Int)
    (exitSig : Option String) : MState × List Ev × List Settle :=
  match st.procHandle, st.isRunningFlag with
  | some p, true =>
    if p.hasStdin then
      let r := onExit st exitCode exitSig
      (r.1, Ev.stopping reason :: r.2, [Settle.resolve])
    else
      (st, [Ev.stopping reason], [Settle.rejectErr MError.notRunning])
  | _, _ => (st, [], [Settle.rejectErr MError.notRunning])

/-! ### restart (lines 238-249)

Emits `restarting`, then — only if the running flag is set — awaits `stop`
and a 5000 ms `setTimeout` delay, and finally awaits `start`.  There is no
not-running guard. -/

/-- The sequence of observable actions `restart` performs, in order. -/
inductive RAct where
  | emitRestarting (reason : String)
  | callStop (reason : String)
  | delayMs (n : Nat)
  | callStart
deriving DecidableEq, Repr

def restartActions (st : MState) (reason : String) : List RAct :=
  [RAct.emitRestarting reason] ++
    (if st.isRunningFlag then [RAct.callStop reason, RAct.delayMs 5000] else []) ++
    [RAct.callStart]

/-- `restart` as a state transformer, with the awaited mid-run exit of the
stopped process passed in for the running case. -/
def restart (env : SpawnEnv) (st : MState) (reason : String)
    (exitCode : Option Int) (exitSig : Option String) : MState × List Ev × List Settle :=
  if st.isRunningFlag then
    let rs := stop st reason exitCode exitSig
    match promiseOutcome rs.2.2 with
    | some Settle.resolve =>
      let r2 := start env rs.1
      (r2.1, Ev.restarting reason :: (rs.2.1 ++ r2.2.1), r2.2.2)
    | _ => (rs.1, Ev.restarting reason :: rs.2.1, rs.2.2)
  else
    let r := start env st
    (r.1, Ev.restarting reason :: r.2.1, r.2.2)

/-! ### ConfigManager (config.ts lines 245-269)

A JS value tree for the configuration.  JS peculiarities that matter:
`typeof null === 'object'`, `null` is falsy while every object is truthy,
`k in obj` tests property presence (own properties suffice here), and
`obj[k] = v` on `null` throws a `TypeError`. -/

inductive JSVal where
  | vnull
  | vundef
  | vbool (b : Bool)
  | vnum (n : Int)
  | vstr (s : String)
  | vobj (fields : List (String × JSVal))

/-- First binding of a key among an object's fields (`k in obj` / `obj[k]`). -/
def objFind (fs : List (String × JSVal)) (k : String) : Option JSVal :=
  match fs with
  | [] => none
  | p :: ps => if p.1 = k then some p.2 else objFind ps k

/-- `obj[k] = v`: update the first binding in place, else append. -/
def objSet (fs : List (String × JSVal)) (k : String) (v : JSVal) :
    List (String × JSVal) :=
  match fs with
  | [] => [(k, v)]
  | p :: ps => if p.1 = k then (k, v) :: ps else p :: objSet ps k v

/-- `typeof v === 'object'` — true for objects and for `null`. -/
def typeofObject (v : JSVal) : Bool :=
  match v with
  | JSVal.vnull => true
  | JSVal.vobj _ => true
  | _ => false

/-- The loop of `ConfigManager.get`: descend only while the value is truthy,
of object type, and has the key; otherwise return `undefined`.  `null` is
falsy, so the truthiness test stops descent into `null` and `get` never
throws. -/
def getPath (v : JSVal) : List String → JSVal
  | [] => v
  | k :: ks =>
    match v with
    | JSVal.vobj fs =>
      match objFind fs k with
      | some v2 => getPath v2 ks
      | none => JSVal.vundef
    | _ => JSVal.vundef

/-- One step of `ConfigManager.set`'s walk: the value descended into at key
`k` — kept when present and of object type (`typeof null === 'object'`, so
`null` is kept!), replaced by `{}` otherwise. -/
def childFor (fs : List (String × JSVal)) (k : String) : JSVal :=
  match objFind fs k with
  | some c => if typeofObject c then c else JSVal.vobj []
  | none => JSVal.vobj []

/-- The loop of `ConfigManager.set`: walk all segments but the last, creating
`{}` whenever the key is absent or its value is not of object type (`null`
IS of object type, so a `null` intermediate is entered and the next `in`
test or the final assignment throws — modelled as `none`). -/
def setPath : List String → JSVal → JSVal → Option JSVal
  | [], obj, _ => some obj
  | [k], JSVal.vobj fs, v => some (JSVal.vobj (objSet fs k v))
  | k :: k2 :: ks, JSVal.vobj fs, v =>
    match setPath (k2 :: ks) (childFor fs k) v with
    | some child2 => some (JSVal.vobj (objSet fs k child2))
    | none => none
  | _ :: _, _, _ => none

/-- `key.split('.')` — JS semantics: `"".split('.') = [""]`,
`"a..b".split('.') = ["a","","b"]`; the result always has at least one
element. -/
def splitDotAux : List Char → List Char → List (List Char)
  | [], acc => [acc.reverse]
  | c :: cs, acc =>
    if c = '.' then acc.reverse :: splitDotAux cs [] else splitDotAux cs (c :: acc)

def splitDot (s : String) : List String :=
  (splitDotAux s.data []).map String.mk

namespace ConfigManager

/-- `get(key)`: split on dots, walk the tree, `undefined` on any miss. -/
def get (config : JSVal) (key : String) : JSVal :=
  getPath config (splitDot key)

/-- `set(key, value)`: returns the updated configuration, or `none` when the
walk throws a `TypeError` (a `null` intermediate). -/
def set (config : JSVal) (key : String) (value : JSVal) : Option JSVal :=
  setPath (splitDot key) config value

end ConfigManager

mutual

/-- No `null` anywhere in a value (`vobj` fields included). -/
def nullFree (v : JSVal) : Bool :=
  match v with
  | JSVal.vnull => false
  | JSVal.vobj fs => nullFreeL fs
  | _ => true

/-- No `null` in a field list. -/
def nullFreeL (fs : List (String × JSVal)) : Bool :=
  match fs with
  | [] => true
  | p :: ps => nullFree p.2 && nullFreeL ps

end

/-! ### getStatus (server-manager.ts lines 301-312) -/

structure ServerStatus where
  isRunning : Bool
  uptime : Int
  playerCount : Int
  cfgName : JSVal
  cfgPort : JSVal
  cfgMaxPlayers : JSVal

/-- `getStatus()`: a read of the fields plus three config lookups.  The
uptime is `this.startTime ? Date.now() - this.startTime : 0` — the test is
JS truthiness of the start time, not the running flag, and a recorded start
time of `0` is falsy. -/
def getStatus (config : JSVal) (st : MState) (now : Int) : MState × ServerStatus :=
  (st,
    { isRunning := st.isRunningFlag
      uptime :=
        match st.startTime with
        | some t => if t ≠ 0 then now - t else 0
        | none => 0
      playerCount := st.playerCount
      cfgName := ConfigManager.get config "server.name"
      cfgPort := ConfigManager.get config "server.port"
      cfgMaxPlayers := ConfigManager.get config "server.maxPlayers" })

/-! ### cleanup (lines 314-321) -/

/-- `FileHandle.close()` in Node resolves immediately when the handle is
already closed; only an open handle performs an actual fd close. -/
def fhClose (h : LogHandle) : LogHandle :=
  if h.closed then h else { closed := true, closeCount := h.closeCount + 1 }

/-- The number of fd closes performed so far on the manager's log handle. -/
def logCloseCount (st : MState) : Nat :=
  match st.logStream with
  | some h => h.closeCount
  | none => 0

/-- `cleanup()`: stop if running (awaiting the exit), then close the log
handle if present.  The `logStream` field is NOT cleared, so a second call
reaches `close()` again — on an already-closed Node `FileHandle`.  If the
inner `stop` rejects, the `await` re-throws and the close is skipped. -/
def cleanup (st : MState) (exitCode : Option Int) (exitSig : Option String) :
    MState × List Ev × List Settle :=
  if st.isRunningFlag then
    let rs := stop st "Cleanup" exitCode exitSig
    match promiseOutcome rs.2.2 with
    | some Settle.resolve =>
      ({ rs.1 with logStream := rs.1.logStream.map fhClose }, rs.2.1, [Settle.resolve])
    | _ => rs
  else
    ({ st with logStream := st.logStream.map fhClose }, [], [Settle.resolve])

/-! ### Concrete fixtures -/

def goodProc : Proc :=
  { pid := 1, hasStdin := true, hasStdout := true, hasStderr := true }

def goodEnv : SpawnEnv :=
  { jarExists := true, assetsExists := true, proc := goodProc, now := 1000,
    autoRestart := false, restartInterval := 21600000 }

/-- A freshly initialised manager: no process, not running, log open. -/
def idleState : MState :=
  { procHandle := none, isRunningFlag := false, startTime := none,
    restartTimer := none, logStream := some { closed := false, closeCount := 0 },
    playerCount := 0 }

/-- A manager with a live process. -/
def runningState : MState :=
  { procHandle := some goodProc, isRunningFlag := true, startTime := some 1000,
    restartTimer := none, logStream := some { closed := false, closeCount := 0 },
    playerCount := 2 }

/-! ### Helper lemmas -/

lemma joinStep_nonneg (c : Int) (m : String) (h : 0 ≤ c) :
    0 ≤ (joinStep c m).1 := by
  unfold joinStep
  split
  · cases hf : findName joinAlts m.data <;> simp [hf] <;> omega
  · simpa using h

lemma leaveStep_nonneg (c : Int) (m : String) (h : 0 ≤ c) :
    0 ≤ (leaveStep c m).1 := by
  unfold leaveStep
  split
  · cases hf : findName leaveAlts m.data <;> simp [hf]
    omega
  · simpa using h

lemma parseServerOutput_nonneg (c : Int) (m : String) (h : 0 ≤ c) :
    0 ≤ (parseServerOutput c m).1 := by
  unfold parseServerOutput
  exact leaveStep_nonneg _ _ (joinStep_nonneg _ _ h)

/-! ### C1 -/

/-- C1: in every state with the running flag set, `start()` rejects with
`AlreadyRunning` ('Server is already running'), emits nothing, and leaves
the whole supervisor state — running flag, start time, player count,
process handle, timers — unchanged. -/
theorem start_alreadyRunning (env : SpawnEnv) (st : MState)
    (h : st.isRunningFlag = true) :
    start env st = (st, [], [Settle.rejectErr MError.alreadyRunning]) := by
  simp [start, h]

/-- Witness for C1 at a concrete running state. -/
theorem start_alreadyRunning_witness :
    start goodEnv runningState =
      (runningState, [], [Settle.rejectErr MError.alreadyRunning]) :=
  start_alreadyRunning goodEnv runningState rfl

/-! ### C4 -/

/-- C4: every mid-run exit with code `c` and signal `s` emits `stopped (c, s)`
first; a `crashed (c, s)` event is additionally emitted iff `c` is non-zero
and non-null.  Concretely: code 1 gives `stopped` then `crashed`, code 0
gives only `stopped`, a null code gives only `stopped`. -/
theorem onExit_stopped_crashed (st : MState) (code : Option Int)
    (signal : Option String) :
    ((onExit st code signal).2.head? = some (Ev.stopped code signal)) ∧
    (Ev.crashed code signal ∈ (onExit st code signal).2 ↔
      ∃ n, code = some n ∧ n ≠ 0) ∧
    (onExit st (some 1) signal).2 =
      [Ev.stopped (some 1) signal, Ev.crashed (some 1) signal] ∧
    (onExit st (some 0) signal).2 = [Ev.stopped (some 0) signal] ∧
    (onExit st none signal).2 = [Ev.stopped none signal] := by
  refine ⟨?_, ?_, ?_, ?_, ?_⟩
  · unfold onExit; split <;> rfl
  · unfold onExit
    cases code with
    | none => simp
    | some n =>
      by_cases hn : n = 0 <;> simp [hn]
  · rfl
  · rfl
  · rfl

/-! ### C5 -/

/-- C5: `restart` on a running instance performs `stop` first and `start`
second with a fixed non-zero 5000 ms delay strictly between them; on a
non-running instance it performs `start` only, with no stop and no delay.
The last conjunct checks the state-transformer form: after a `restart` on a
running instance whose `stop` resolves, the result is exactly `start`
applied to the stopped state, with `stop`'s events preceding `start`'s. -/
theorem restart_stop_then_start (st : MState) (reason : String) :
    (st.isRunningFlag = true →
      restartActions st reason =
        [RAct.emitRestarting reason, RAct.callStop reason,
          RAct.delayMs 5000, RAct.callStart] ∧ (5000 : Nat) ≠ 0) ∧
    (st.isRunningFlag = false →
      restartActions st reason = [RAct.emitRestarting reason, RAct.callStart]) ∧
    (∀ (env : SpawnEnv) (ec : Option Int) (es : Option String),
      st.isRunningFlag = true →
      (stop st reason ec es).2.2 = [Settle.resolve] →
      restart env st reason ec es =
        ((start env (stop st reason ec es).1).1,
          Ev.restarting reason ::
            ((stop st reason ec es).2.1 ++ (start env (stop st reason ec es).1).2.1),
          (start env (stop st reason ec es).1).2.2)) := by
  refine ⟨?_, ?_, ?_⟩
  · intro h; simp [restartActions, h]
  · intro h; simp [restartActions, h]
  · intro env ec es h hstop
    simp [restart, h, hstop, promiseOutcome]

/-- Witness for C5: both branches at concrete states. -/
theorem restart_stop_then_start_witness :
    restartActions runningState "r" =
      [RAct.emitRestarting "r", RAct.callStop "r",
        RAct.delayMs 5000, RAct.callStart] ∧
    restartActions idleState "r" = [RAct.emitRestarting "r", RAct.callStart] :=
  ⟨((restart_stop_then_start runningState "r").1 rfl).1,
    (restart_stop_then_start idleState "r").2.1 rfl⟩

/-! ### C6 -/

/-- C6: the stdout line `"Steve joined the game"` increments the player
count by exactly one and emits exactly one player event — a `playerJoin`
carrying the name `"Steve"` and the post-increment count. -/
theorem playerJoin_steve (c : Int) :
    parseServerOutput c "Steve joined the game" =
      (c + 1, [Ev.playerJoin "Steve" (c + 1)]) := by
  have hj : joinGuard "Steve joined the game" = true := by rfl
  have hl : leaveGuard "Steve joined the game" = false := by rfl
  have hr : readyGuard "Steve joined the game" = false := by rfl
  have hn : findName joinAlts "Steve joined the game".data = some "Steve".data := by rfl
  simp [parseServerOutput, joinStep, leaveStep, hj, hl, hr, hn]

/-! ### C7 -/

/-- C7: the player count never becomes negative — a leave decrements but is
clamped at zero — over any sequence of parsed lines; with count 3 the line
`"Steve left the game"` yields count 2 and a single `playerLeave`, and a
further leave at count 0 keeps the count at 0. -/
theorem playerCount_nonneg_clamped :
    (∀ (c : Int) (msgs : List String), 0 ≤ c → 0 ≤ runLines c msgs) ∧
    parseServerOutput 3 "Steve left the game" = (2, [Ev.playerLeave "Steve" 2]) ∧
    parseServerOutput 0 "Steve left the game" = (0, [Ev.playerLeave "Steve" 0]) := by
  refine ⟨?_, by rfl, by rfl⟩
  intro c msgs
  induction msgs generalizing c with
  | nil => intro h; simpa [runLines] using h
  | cons m ms ih =>
    intro h
    have := parseServerOutput_nonneg c m h
    simpa [runLines] using ih _ this

/-- Witness for C7 at count 0 over a join/leave/leave sequence. -/
theorem playerCount_nonneg_clamped_witness :
    0 ≤ runLines 0 ["Steve joined the game", "Steve left the game",
      "Steve left the game"] :=
  playerCount_nonneg_clamped.1 0 _ (by decide)

/-! ### C2 -/

/-- Counterexample for C2: `restart` on a non-running manager does not fail
with `NotRunning` — its promise resolves, and it changes state by starting
the server (the running flag is set afterwards).  Only `stop` and
`sendCommand` carry the guard. -/
theorem restart_notRunning_cex :
    (restart goodEnv idleState "r" none none).2.2 = [Settle.resolve] ∧
    Settle.resolve ≠ Settle.rejectErr MError.notRunning ∧
    (restart goodEnv idleState "r" none none).1.isRunningFlag = true := by
  refine ⟨rfl, ?_, rfl⟩
  intro h
  cases h

/-- C2 (amended): while not running, `stop` and `sendCommand` fail with
`NotRunning` ('Server is not running') and leave the state unchanged, but
`restart` does not fail — it emits `restarting` and proceeds directly to
`start()`. -/
theorem notRunning_guards (st : MState) (h : st.isRunningFlag = false)
    (reason command : String) (ec : Option Int) (es : Option String)
    (env : SpawnEnv) :
    stop st reason ec es = (st, [], [Settle.rejectErr MError.notRunning]) ∧
    sendCommand st command = (st, Except.error MError.notRunning) ∧
    restart env st reason ec es =
      ((start env st).1, Ev.restarting reason :: (start env st).2.1,
        (start env st).2.2) := by
  refine ⟨?_, ?_, ?_⟩
  · unfold stop
    cases hp : st.procHandle <;> simp [h]
  · unfold sendCommand
    cases hp : st.procHandle <;> simp [h]
  · simp [restart, h]

/-- Witness for C2's amended statement at a concrete idle state. -/
theorem notRunning_guards_witness :
    stop idleState "r" none none =
      (idleState, [], [Settle.rejectErr MError.notRunning]) ∧
    sendCommand idleState "help" = (idleState, Except.error MError.notRunning) ∧
    restart goodEnv idleState "r" none none =
      ((start goodEnv idleState).1, Ev.restarting "r" :: (start goodEnv idleState).2.1,
        (start goodEnv idleState).2.2) :=
  notRunning_guards idleState rfl "r" "help" none none goodEnv

/-! ### C3 -/

/-- Counterexample for C3: in a spawn-failure run the promise returned by
`start()` resolves — it settled optimistically at the end of the executor,
before the asynchronous `'error'` event delivered the spawn failure, so the
later `reject` is a no-op and the operation is not rejected. -/
theorem start_spawnFailure_resolves_cex :
    (startWithSpawnFailure goodEnv idleState "spawn ENOENT").2.2 =
      [Settle.resolve, Settle.rejectSpawn "spawn ENOENT"] ∧
    promiseOutcome (startWithSpawnFailure goodEnv idleState "spawn ENOENT").2.2 =
      some Settle.resolve ∧
    some Settle.resolve ≠ some (Settle.rejectSpawn "spawn ENOENT") := by
  refine ⟨rfl, rfl, by decide⟩

/-- C3 (amended): when the spawn fails at the process level, the running
flag is flipped back to not-running and an `error` event carrying the
failure is emitted — but the promise returned by `start()` has already
resolved synchronously at the end of the executor, before the spawn outcome
was known; the handler's `reject` comes second and is a no-op, and the
recorded start time is not cleared. -/
theorem start_spawnFailure_spec (env : SpawnEnv) (st : MState) (e : String)
    (h : st.isRunningFlag = false) (hj : env.jarExists = true)
    (ha : env.assetsExists = true) (hin : env.proc.hasStdin = true)
    (hout : env.proc.hasStdout = true) (herr : env.proc.hasStderr = true) :
    (startWithSpawnFailure env st e).1.isRunningFlag = false ∧
    (startWithSpawnFailure env st e).1.startTime = some env.now ∧
    Ev.error e ∈ (startWithSpawnFailure env st e).2.1 ∧
    (startWithSpawnFailure env st e).2.2 = [Settle.resolve, Settle.rejectSpawn e] ∧
    promiseOutcome (startWithSpawnFailure env st e).2.2 = some Settle.resolve := by
  simp [startWithSpawnFailure, start, onSpawnError, promiseOutcome,
    h, hj, ha, hin, hout, herr]

/-- Witness for C3's amended statement at a concrete environment. -/
theorem start_spawnFailure_spec_witness :
    (startWithSpawnFailure goodEnv idleState "ENOENT").1.isRunningFlag = false ∧
    (startWithSpawnFailure goodEnv idleState "ENOENT").1.startTime =
      some goodEnv.now ∧
    Ev.error "ENOENT" ∈ (startWithSpawnFailure goodEnv idleState "ENOENT").2.1 ∧
    (startWithSpawnFailure goodEnv idleState "ENOENT").2.2 =
      [Settle.resolve, Settle.rejectSpawn "ENOENT"] ∧
    promiseOutcome (startWithSpawnFailure goodEnv idleState "ENOENT").2.2 =
      some Settle.resolve :=
  start_spawnFailure_spec goodEnv idleState "ENOENT" rfl rfl rfl rfl rfl rfl

/-! ### C8 -/

/-- The state left behind by a spawn-level start failure: not running, but
with the start time still recorded (the `'error'` handler clears only the
running flag). -/
def spawnFailState : MState :=
  (startWithSpawnFailure goodEnv idleState "spawn ENOENT").1

/-- Counterexample for C8: in the reachable state left by a spawn-level
start failure the server is not running, yet `getStatus()` reports uptime
`now - startTime = 500`, not zero — the code tests the truthiness of the
recorded start time, not the running flag. -/
theorem getStatus_uptime_cex :
    spawnFailState.isRunningFlag = false ∧
    spawnFailState.startTime = some 1000 ∧
    (getStatus (JSVal.vobj []) spawnFailState 1500).2.isRunning = false ∧
    (getStatus (JSVal.vobj []) spawnFailState 1500).2.uptime = 500 ∧
    (500 : Int) ≠ 0 := by
  refine ⟨rfl, rfl, rfl, rfl, by decide⟩

/-- C8 (amended): `getStatus()` is a pure read — it leaves the state
unchanged and returns the running flag, the player count and a snapshot of
the three user-facing config lookups; its uptime is `now` minus the
recorded start time whenever a truthy (non-zero) start time is recorded —
regardless of the running flag — and zero exactly when no start time is
recorded or the recorded start time is the falsy `0`.  (After a spawn-level
failure the start time survives with the flag cleared, so uptime can be
non-zero while not running.) -/
theorem getStatus_spec (config : JSVal) (st : MState) (now : Int) :
    (getStatus config st now).1 = st ∧
    (getStatus config st now).2.isRunning = st.isRunningFlag ∧
    (getStatus config st now).2.playerCount = st.playerCount ∧
    (getStatus config st now).2.cfgName = ConfigManager.get config "server.name" ∧
    (getStatus config st now).2.cfgPort = ConfigManager.get config "server.port" ∧
    (getStatus config st now).2.cfgMaxPlayers =
      ConfigManager.get config "server.maxPlayers" ∧
    (st.startTime = none → (getStatus config st now).2.uptime = 0) ∧
    (∀ t, st.startTime = some t → t ≠ 0 →
      (getStatus config st now).2.uptime = now - t) ∧
    (∀ t, st.startTime = some t → t = 0 →
      (getStatus config st now).2.uptime = 0) := by
  refine ⟨rfl, rfl, rfl, rfl, rfl, rfl, ?_, ?_, ?_⟩
  · intro h
    simp [getStatus, h]
  · intro t ht hz
    simp [getStatus, ht, hz]
  · intro t ht hz
    simp [getStatus, ht, hz]

/-- Witness for C8's amended statement: uptime 0 with no start time; uptime
`now - t` with a non-zero one. -/
theorem getStatus_spec_witness :
    (getStatus (JSVal.vobj []) idleState 7).2.uptime = 0 ∧
    (getStatus (JSVal.vobj []) runningState 1500).2.uptime = 1500 - 1000 :=
  ⟨(getStatus_spec (JSVal.vobj []) idleState 7).2.2.2.2.2.2.1 rfl,
    ((getStatus_spec (JSVal.vobj []) runningState 1500).2.2.2.2.2.2.2).1 1000 rfl
      (by decide)⟩

/-! ### C9 -/

lemma fhClose_fhClose (h : LogHandle) : fhClose (fhClose h) = fhClose h := by
  unfold fhClose
  by_cases hc : h.closed <;> simp [hc]

lemma fhClose_closeCount (h : LogHandle) :
    (fhClose h).closeCount ≤ h.closeCount + 1 := by
  unfold fhClose
  by_cases hc : h.closed <;> simp [hc]

/-- C9: `cleanup` is idempotent on the log handle: called twice in a row
with the manager not running at the second call, neither call's promise
rejects, the second call performs no additional fd close, and across both
calls the underlying handle is closed at most once. -/
theorem cleanup_idempotent (st : MState) (ec ec2 : Option Int)
    (es es2 : Option String)
    (h : ((cleanup st ec es).1).isRunningFlag = false) :
    (cleanup st ec es).2.2 = [Settle.resolve] ∧
    (cleanup (cleanup st ec es).1 ec2 es2).2.2 = [Settle.resolve] ∧
    logCloseCount (cleanup (cleanup st ec es).1 ec2 es2).1 =
      logCloseCount (cleanup st ec es).1 ∧
    logCloseCount (cleanup st ec es).1 ≤ logCloseCount st + 1 := by
  obtain ⟨ph, flag, t, rt, ls, pc⟩ := st
  cases flag with
  | false =>
    refine ⟨rfl, rfl, ?_, ?_⟩ <;>
      cases ls with
      | none => simp [cleanup, logCloseCount]
      | some lh =>
        simp [cleanup, logCloseCount, fhClose_fhClose, fhClose_closeCount]
  | true =>
    cases ph with
    | none => simp [cleanup, stop, promiseOutcome] at h
    | some p =>
      cases hs : p.hasStdin with
      | false => simp [cleanup, stop, promiseOutcome, hs] at h
      | true =>
        refine ⟨?_, ?_, ?_, ?_⟩ <;>
          cases ls with
          | none =>
            simp [cleanup, stop, onExit, promiseOutcome, hs, logCloseCount]
          | some lh =>
            simp [cleanup, stop, onExit, promiseOutcome, hs, logCloseCount,
              fhClose_fhClose, fhClose_closeCount]

/-- Witness for C9 at a concrete idle state with an open log handle. -/
theorem cleanup_idempotent_witness :
    (cleanup idleState none none).2.2 = [Settle.resolve] ∧
    (cleanup (cleanup idleState none none).1 none none).2.2 = [Settle.resolve] ∧
    logCloseCount (cleanup (cleanup idleState none none).1 none none).1 =
      logCloseCount (cleanup idleState none none).1 ∧
    logCloseCount (cleanup idleState none none).1 ≤ logCloseCount idleState + 1 :=
  cleanup_idempotent idleState none none none none rfl

/-! ### C10 -/

lemma splitDotAux_ne_nil (l acc : List Char) : splitDotAux l acc ≠ [] := by
  induction l generalizing acc with
  | nil => simp [splitDotAux]
  | cons c cs ih =>
    unfold splitDotAux
    by_cases h : c = '.'
    · simp [h]
    · simpa [h] using ih (c :: acc)

lemma splitDot_ne_nil (s : String) : splitDot s ≠ [] := by
  unfold splitDot
  intro h
  exact splitDotAux_ne_nil s.data [] (by simpa using h)

lemma objFind_objSet_self (fs : List (String × JSVal)) (k : String) (v : JSVal) :
    objFind (objSet fs k v) k = some v := by
  induction fs with
  | nil => simp [objSet, objFind]
  | cons p ps ih =>
    by_cases h : p.1 = k <;> simp [objSet, objFind, h, ih]

lemma nullFreeL_objFind (fs : List (String × JSVal)) (k : String) (c : JSVal)
    (h : nullFreeL fs = true) (hf : objFind fs k = some c) : nullFree c = true := by
  induction fs with
  | nil => simp [objFind] at hf
  | cons p ps ih =>
    rw [nullFreeL, Bool.and_eq_true] at h
    rw [objFind] at hf
    by_cases hp : p.1 = k
    · rw [if_pos hp] at hf
      cases hf
      exact h.1
    · rw [if_neg hp] at hf
      exact ih h.2 hf

lemma childFor_nullFree (fs : List (String × JSVal)) (k : String)
    (h : nullFreeL fs = true) :
    ∃ cfs, childFor fs k = JSVal.vobj cfs ∧ nullFreeL cfs = true := by
  unfold childFor
  cases hf : objFind fs k with
  | none => exact ⟨[], rfl, rfl⟩
  | some c =>
    have hc := nullFreeL_objFind fs k c h hf
    cases c with
    | vnull => simp [nullFree] at hc
    | vobj cfs =>
      refine ⟨cfs, by simp [typeofObject], ?_⟩
      simpa [nullFree] using hc
    | vundef => exact ⟨[], by simp [typeofObject], rfl⟩
    | vbool b => exact ⟨[], by simp [typeofObject], rfl⟩
    | vnum n => exact ⟨[], by simp [typeofObject], rfl⟩
    | vstr s => exact ⟨[], by simp [typeofObject], rfl⟩

lemma setPath_roundtrip (ks : List String) :
    ∀ (fs : List (String × JSVal)) (v : JSVal), ks ≠ [] → nullFreeL fs = true →
    ∃ fs2, setPath ks (JSVal.vobj fs) v = some (JSVal.vobj fs2) ∧
      getPath (JSVal.vobj fs2) ks = v := by
  induction ks with
  | nil => intro fs v h _; exact absurd rfl h
  | cons k ks ih =>
    intro fs v _ hnf
    cases ks with
    | nil =>
      refine ⟨objSet fs k v, by simp [setPath], ?_⟩
      simp [getPath, objFind_objSet_self]
    | cons k2 ks2 =>
      obtain ⟨cfs, hc, hcn⟩ := childFor_nullFree fs k hnf
      obtain ⟨fs2, hset, hget⟩ := ih cfs v (by simp) hcn
      refine ⟨objSet fs k (JSVal.vobj fs2), ?_, ?_⟩
      · rw [setPath, hc, hset]
      · simp only [getPath, objFind_objSet_self]
        show getPath (JSVal.vobj fs2) (k2 :: ks2) = v
        exact hget

/-- Counterexample for C10: a legal `set("a", null)` puts `null` at an
intermediate position; a subsequent `set("a.b", 1)` descends into it
(`typeof null === 'object'`) and throws a `TypeError` rather than creating
the missing object, so `get("a.b")` afterwards yields `undefined`, not the
value written. -/
theorem config_roundtrip_cex :
    ConfigManager.set (JSVal.vobj []) "a" JSVal.vnull =
      some (JSVal.vobj [("a", JSVal.vnull)]) ∧
    ConfigManager.set (JSVal.vobj [("a", JSVal.vnull)]) "a.b" (JSVal.vnum 1) =
      none ∧
    ConfigManager.get (JSVal.vobj [("a", JSVal.vnull)]) "a.b" = JSVal.vundef ∧
    JSVal.vundef ≠ JSVal.vnum 1 := by
  refine ⟨rfl, rfl, rfl, ?_⟩
  intro hcon
  cases hcon

/-- C10 (amended): for every dot-separated key and every value, on a
configuration containing no `null`, `set(k, v)` succeeds — creating missing
intermediate objects — and `get(k)` then returns exactly `v`; with a `null`
intermediate on the path, `set` throws a `TypeError` instead.  `get` never
throws: an absent intermediate key or a non-object intermediate yields
`undefined`. -/
theorem config_set_get_roundtrip (fs : List (String × JSVal)) (key : String)
    (v : JSVal) (hnf : nullFree (JSVal.vobj fs) = true) :
    (∃ c2, ConfigManager.set (JSVal.vobj fs) key v = some c2 ∧
      ConfigManager.get c2 key = v) ∧
    (∀ (gs : List (String × JSVal)) (k : String) (rest : List String),
      objFind gs k = none → getPath (JSVal.vobj gs) (k :: rest) = JSVal.vundef) ∧
    (∀ (w : JSVal) (k : String) (rest : List String),
      (∀ gs, w ≠ JSVal.vobj gs) → getPath w (k :: rest) = JSVal.vundef) := by
  refine ⟨?_, ?_, ?_⟩
  · have h1 : nullFreeL fs = true := by simpa [nullFree] using hnf
    obtain ⟨fs2, hset, hget⟩ :=
      setPath_roundtrip (splitDot key) fs v (splitDot_ne_nil key) h1
    exact ⟨JSVal.vobj fs2, hset, hget⟩
  · intro gs k rest hf
    simp [getPath, hf]
  · intro w k rest hw
    cases w with
    | vobj gs => exact absurd rfl (hw gs)
    | vnull => rfl
    | vundef => rfl
    | vbool b => rfl
    | vnum n => rfl
    | vstr s => rfl

/-- Witness for C10's amended statement: a concrete round-trip through a
two-segment key on the empty configuration. -/
theorem config_set_get_roundtrip_witness :
    ∃ c2, ConfigManager.set (JSVal.vobj []) "server.port" (JSVal.vnum 25565) =
      some c2 ∧ ConfigManager.get c2 "server.port" = JSVal.vnum 25565 :=
  (config_set_get_roundtrip [] "server.port" (JSVal.vnum 25565)
    (by simp [nullFree, nullFreeL])).1

end Hytale
